import Mathlib

/-!
Verification of the PCA9685 servo controller (`src/example/pca9685.py`).

The Python class is shallowly embedded: the mutable object state becomes the
structure `PCA9685.State`, each method becomes a pure function on that state,
and I2C bus traffic becomes an explicit list of `BusEvent`s.  Python floats
are modelled by exact rationals (all expressions involved stay in ranges where
the claims are about the exact formulas), Python `int(...)` truncation by
`pythonInt`, and Python `round(...)` (banker's rounding, half to even) by
`pythonRound`.  A Python `IndexError` escaping a method is modelled by
`Except.error` carrying the object state at the moment the exception was
raised (the mutations already performed are retained, exactly as in Python).
-/

namespace PCA9685

/-- Register address constants from the source. -/
def MODE1 : Nat := 0x00

def PRESCALE : Nat := 0xFE

def CHANNEL_ON_L : Nat := 0x06

def CHANNEL_ON_H : Nat := 0x07

def CHANNEL_OFF_L : Nat := 0x08

def CHANNEL_OFF_H : Nat := 0x09

/-- Mode register bit: restart. -/
def RESTART : Nat := 0x80

/-- Mode register bit: sleep. -/
def SLEEP : Nat := 0x10

/-- One observable action on the I2C bus / clock: a register write, a register
read, or a millisecond sleep. -/
inductive BusEvent where
  | writeReg : Nat → ℤ → BusEvent
  | readReg : Nat → BusEvent
  | sleepMs : Nat → BusEvent
deriving DecidableEq

/-- Python `int(x)`: truncation toward zero. -/
def pythonInt (x : ℚ) : ℤ := if 0 ≤ x then ⌊x⌋ else ⌈x⌉

/-- Python `round(x)` on a real value: round half to even. -/
def pythonRound (x : ℚ) : ℤ :=
  if Int.fract x = 1 / 2 then (if 2 ∣ ⌊x⌋ then ⌊x⌋ else ⌊x⌋ + 1) else round x

/-- Source line `angle = max(0, min(180, angle))` in `_set_servo_angle`
(the same expression clamps each incoming angle in `move`). -/
def clamp_angle (a : ℚ) : ℚ := max 0 (min 180 a)

/-- Source line `pulse = 500 + (angle / 180) * 2000` in `_set_servo_angle`,
applied to the already clamped angle. -/
def servo_pulse (a : ℚ) : ℚ := 500 + (clamp_angle a / 180) * 2000

/-- Source line `pwm = int(4096 * pulse / 20000)` in `_set_servo_angle`. -/
def servo_pwm (a : ℚ) : ℤ := pythonInt (4096 * servo_pulse a / 20000)

/-- The three register writes `_set_servo_angle(channel, angle)` performs.
`pwm & 0xFF` and `pwm >> 8` on the nonnegative 12-bit value are `% 256` and
`/ 256`. -/
def set_servo_angle (channel : Nat) (angle : ℚ) : List BusEvent :=
  [ BusEvent.writeReg (CHANNEL_ON_L + 4 * channel) 0,
    BusEvent.writeReg (CHANNEL_OFF_L + 4 * channel) (servo_pwm angle % 256),
    BusEvent.writeReg (CHANNEL_OFF_L + 4 * channel + 1) (servo_pwm angle / 256) ]

/-- `_set_pwm_freq(freq_hz)`: returns the computed prescale value and the bus
trace.  `old_mode` is the value the initial `_read(MODE1)` returns. -/
def set_pwm_freq (old_mode : Nat) (freq_hz : ℚ) : ℤ × List BusEvent :=
  let prescale : ℤ := pythonRound (25000000 / (4096 * freq_hz)) - 1
  (prescale,
   [ BusEvent.readReg MODE1,
     BusEvent.writeReg MODE1 (((old_mode &&& 0x7F) ||| SLEEP : Nat) : ℤ),
     BusEvent.writeReg PRESCALE prescale,
     BusEvent.writeReg MODE1 (old_mode : ℤ),
     BusEvent.sleepMs 5,
     BusEvent.writeReg MODE1 ((old_mode ||| RESTART : Nat) : ℤ) ])

/-- The mutable state of a `PCA9685` object: the servo arrays, the last-update
timestamp (ms), and the control-thread bookkeeping. -/
structure State where
  max_channel : Nat
  servo_targets : List ℚ
  servo_current : List ℚ
  servo_speeds : List ℚ
  last_update : ℤ
  control_thread_running : Bool
  update_interval : ℚ
  move_complete : Bool
deriving DecidableEq

/-- Object state at the end of `__init__(... max_channel, calibrate_angle)`:
all three arrays hold `calibrate_angle`, the control thread is not running,
the update interval is `0.02` s and `_move_complete` is `True`.  `t0` is the
`time.ticks_ms()` value recorded as `last_update`. -/
def initState (max_channel : Nat) (calibrate_angle : ℚ) (t0 : ℤ) : State :=
  { max_channel := max_channel
    servo_targets := List.replicate max_channel calibrate_angle
    servo_current := List.replicate max_channel calibrate_angle
    servo_speeds := List.replicate max_channel calibrate_angle
    last_update := t0
    control_thread_running := false
    update_interval := 1 / 50
    move_complete := true }

/-- `calibrate_all_servos(angle)`: one `_set_servo_angle` call plus a 20 ms
sleep per channel.  It touches no field of the object state. -/
def calibrate_all_servos (s : State) (angle : ℚ) : State × List BusEvent :=
  (s, (List.range s.max_channel).foldr
        (fun ch acc => set_servo_angle ch angle ++ [BusEvent.sleepMs 20] ++ acc) [])

/-- `start_control_thread(update_interval)`: guarded by
`if not self._control_thread_running`. -/
def start_control_thread (s : State) (interval : ℚ) : State :=
  if s.control_thread_running then s
  else { s with control_thread_running := true, update_interval := interval }

/-- `stop_control_thread()` state effect: guarded by
`if self._control_thread_running`. -/
def stop_control_thread (s : State) : State :=
  if s.control_thread_running then { s with control_thread_running := false } else s

/-- The argument of the `time.sleep(...)` call in `stop_control_thread`,
namely `int(self._update_interval * 1000 * 2)`.  `time.sleep` interprets this
number as seconds. -/
def stop_sleep_seconds (update_interval : ℚ) : ℤ :=
  pythonInt (update_interval * 1000 * 2)

/-- The implicit `start_control_thread()` call at the top of `move` (with the
default interval `0.02`). -/
def move_pre (s : State) : State := start_control_thread s (1 / 50)

/-- One iteration of the `for ch in range(self.max_channel)` loop body in
`move`: `self.servo_targets[ch] = max(0, min(180, angles[ch]))`, then
`if speeds and len(speeds) == self.max_channel: self.servo_speeds[ch] = speeds[ch]`
(a Python list is truthy iff nonempty). -/
def move_step (n : Nat) (speeds : Option (List ℚ)) (ch : Nat) (a : ℚ) (s : State) : State :=
  let s1 := { s with servo_targets := s.servo_targets.set ch (clamp_angle a) }
  match speeds with
  | none => s1
  | some sp =>
      if sp.length ≠ 0 ∧ sp.length = n then
        { s1 with servo_speeds := s1.servo_speeds.set ch (sp.getD ch 0) }
      else s1

/-- The `move` loop over channels `i, i+1, ...` with `k` iterations left.
Reading `angles[i]` out of range raises `IndexError`; the state mutated so
far is kept in the `error` result. -/
def move_loop (angles : List ℚ) (speeds : Option (List ℚ)) (n : Nat) :
    Nat → Nat → State → Except State State
  | 0, _, s => Except.ok s
  | k + 1, i, s =>
      match angles[i]? with
      | none => Except.error s
      | some a => move_loop angles speeds n k (i + 1) (move_step n speeds i a s)

/-- `move(angles, speeds=None)`: possibly auto-start the control thread, run
the channel loop, and on normal completion set `_move_complete = False`. -/
def move (s : State) (angles : List ℚ) (speeds : Option (List ℚ)) : Except State State :=
  let s0 := move_pre s
  match move_loop angles speeds s0.max_channel s0.max_channel 0 s0 with
  | Except.ok s1 => Except.ok { s1 with move_complete := false }
  | Except.error s1 => Except.error s1

/-- The object state after a call, whether it returned normally or raised. -/
def run_state : Except State State → State
  | Except.ok s => s
  | Except.error s => s

/-- Whether a call raised an exception. -/
def move_failed : Except State State → Bool
  | Except.ok _ => false
  | Except.error _ => true

/-- The `for ch in range(self.max_channel)` loop in `_update_servos`, with
`k` iterations left starting at channel `i`, threading the state, the
`moving` flag and the accumulated bus writes. -/
def update_loop (elapsed : ℚ) :
    Nat → Nat → State → Bool → List BusEvent → State × Bool × List BusEvent
  | 0, _, s, moving, ws => (s, moving, ws)
  | k + 1, i, s, moving, ws =>
      let target := s.servo_targets.getD i 0
      let current := s.servo_current.getD i 0
      if 1 < |target - current| then
        let step := s.servo_speeds.getD i 0 * elapsed
        let na0 := if current < target then current + step else current - step
        let na := max 0 (min 180 na0)
        update_loop elapsed k (i + 1)
          { s with servo_current := s.servo_current.set i na }
          true (ws ++ set_servo_angle i na)
      else
        update_loop elapsed k (i + 1) s moving ws

/-- `_update_servos()` at clock value `now` (ms): if the elapsed time in
seconds has not reached `_update_interval`, nothing at all happens; otherwise
`last_update` is refreshed, the channel loop runs, and
`_move_complete = not moving`. -/
def update_servos (s : State) (now : ℤ) : State × List BusEvent :=
  let elapsed : ℚ := ((now - s.last_update : ℤ) : ℚ) / 1000
  if s.update_interval ≤ elapsed then
    let s1 := { s with last_update := now }
    let r := update_loop elapsed s1.max_channel 0 s1 false []
    ({ r.1 with move_complete := !r.2.1 }, r.2.2)
  else (s, [])

/-- `is_moving()`: `not self._move_complete`. -/
def is_moving (s : State) : Bool := !s.move_complete

/-- Whether the event list contains a write to register `reg`. -/
def writes_to (reg : Nat) (es : List BusEvent) : Bool :=
  es.any fun e =>
    match e with
    | BusEvent.writeReg r _ => r == reg
    | _ => false

/-- The operations that mutate the servo arrays or flags during the
controller's lifetime. -/
inductive Op where
  | opMove : List ℚ → Option (List ℚ) → Op
  | opTick : ℤ → Op
  | opCalibrate : ℚ → Op
  | opStart : ℚ → Op
  | opStop : Op

/-- Apply one public operation to the object state (keeping the state a
raised `IndexError` leaves behind). -/
def apply_op (s : State) : Op → State
  | Op.opMove angles speeds => run_state (move s angles speeds)
  | Op.opTick now => (update_servos s now).1
  | Op.opCalibrate a => (calibrate_all_servos s a).1
  | Op.opStart i => start_control_thread s i
  | Op.opStop => stop_control_thread s

/-- Run a sequence of operations. -/
def run (s : State) : List Op → State
  | [] => s
  | op :: ops => run (apply_op s op) ops

/-! ## Helper lemmas about the `move` loop -/

/-- `move_pre` only touches the control-thread flag and the interval. -/
theorem move_pre_fields (s : State) :
    (move_pre s).max_channel = s.max_channel
    ∧ (move_pre s).servo_targets = s.servo_targets
    ∧ (move_pre s).servo_current = s.servo_current
    ∧ (move_pre s).servo_speeds = s.servo_speeds
    ∧ (move_pre s).move_complete = s.move_complete
    ∧ (move_pre s).last_update = s.last_update := by
  unfold move_pre start_control_thread
  split <;> simp

/-- One `move` loop iteration: the target entry is set, the rest of the
state is as before (up to the speeds entry, whose length is kept). -/
theorem move_step_fields (n : Nat) (speeds : Option (List ℚ)) (ch : Nat) (a : ℚ) (s : State) :
    (move_step n speeds ch a s).move_complete = s.move_complete
    ∧ (move_step n speeds ch a s).max_channel = s.max_channel
    ∧ (move_step n speeds ch a s).control_thread_running = s.control_thread_running
    ∧ (move_step n speeds ch a s).update_interval = s.update_interval
    ∧ (move_step n speeds ch a s).last_update = s.last_update
    ∧ (move_step n speeds ch a s).servo_current = s.servo_current
    ∧ (move_step n speeds ch a s).servo_targets = s.servo_targets.set ch (clamp_angle a)
    ∧ (move_step n speeds ch a s).servo_speeds.length = s.servo_speeds.length := by
  cases speeds with
  | none => simp [move_step]
  | some sp =>
      by_cases hsp : sp.length ≠ 0 ∧ sp.length = n
      · simp only [move_step]
        rw [if_pos hsp]
        simp
      · simp only [move_step]
        rw [if_neg hsp]
        simp

/-- Fields the `move` loop never writes, whether it completes or raises. -/
theorem move_loop_frame (angles : List ℚ) (speeds : Option (List ℚ)) (n : Nat) :
    ∀ (k i : Nat) (s : State),
      (run_state (move_loop angles speeds n k i s)).move_complete = s.move_complete
      ∧ (run_state (move_loop angles speeds n k i s)).servo_current = s.servo_current
      ∧ (run_state (move_loop angles speeds n k i s)).servo_targets.length = s.servo_targets.length
      ∧ (run_state (move_loop angles speeds n k i s)).servo_speeds.length = s.servo_speeds.length
      ∧ (run_state (move_loop angles speeds n k i s)).max_channel = s.max_channel
      ∧ (run_state (move_loop angles speeds n k i s)).control_thread_running = s.control_thread_running
      ∧ (run_state (move_loop angles speeds n k i s)).update_interval = s.update_interval
      ∧ (run_state (move_loop angles speeds n k i s)).last_update = s.last_update := by
  intro k
  induction k with
  | zero => intro i s; simp [move_loop, run_state]
  | succ k ih =>
      intro i s
      rw [move_loop]
      cases hg : angles[i]? with
      | none => simp [run_state]
      | some a =>
          obtain ⟨h1, h2, h3, h4, h5, h6, h7, h8⟩ := move_step_fields n speeds i a s
          obtain ⟨g1, g2, g3, g4, g5, g6, g7, g8⟩ := ih (i + 1) (move_step n speeds i a s)
          refine ⟨g1.trans h1, g2.trans h6, ?_, g4.trans h8, g5.trans h2, g6.trans h3,
            g7.trans h4, g8.trans h5⟩
          rw [g3, h7, List.length_set]

/-- A too-short angle list makes the `move` loop raise. -/
theorem move_loop_err (angles : List ℚ) (speeds : Option (List ℚ)) (n : Nat) :
    ∀ (k i : Nat) (s : State), i ≤ angles.length → angles.length < i + k →
      move_failed (move_loop angles speeds n k i s) = true := by
  intro k
  induction k with
  | zero => intro i s hle hlt; omega
  | succ k ih =>
      intro i s hle hlt
      rcases lt_or_eq_of_le hle with hlt2 | heq
      · rw [move_loop, List.getElem?_eq_getElem hlt2]
        exact ih (i + 1) _ hlt2 (by omega)
      · rw [move_loop, List.getElem?_eq_none (by omega)]
        rfl

/-- A long-enough angle list makes the `move` loop complete normally. -/
theorem move_loop_ok (angles : List ℚ) (speeds : Option (List ℚ)) (n : Nat) :
    ∀ (k i : Nat) (s : State), i + k ≤ angles.length →
      move_failed (move_loop angles speeds n k i s) = false := by
  intro k
  induction k with
  | zero => intro i s _; rfl
  | succ k ih =>
      intro i s hle
      rw [move_loop, List.getElem?_eq_getElem (by omega)]
      exact ih (i + 1) _ (by omega)

/-- Pointwise effect of the `move` loop on the stored targets: every channel
the loop visits before running out of angle entries is set to its clamped
angle, every other entry is untouched. -/
theorem move_loop_targets (angles : List ℚ) (speeds : Option (List ℚ)) (n : Nat) :
    ∀ (k i : Nat) (s : State), i + k ≤ s.servo_targets.length →
      ∀ j : Nat,
        (run_state (move_loop angles speeds n k i s)).servo_targets.getD j 0
          = if i ≤ j ∧ j < min (i + k) angles.length
            then clamp_angle (angles.getD j 0)
            else s.servo_targets.getD j 0 := by
  intro k
  induction k with
  | zero =>
      intro i s _ j
      rw [move_loop, if_neg (by omega)]
      rfl
  | succ k ih =>
      intro i s hlen j
      rw [move_loop]
      cases hg : angles[i]? with
      | none =>
          have hL : angles.length ≤ i := by
            by_contra hc
            rw [List.getElem?_eq_getElem (by omega)] at hg
            cases hg
          rw [if_neg (by omega)]
          rfl
      | some a =>
          have hi : i < angles.length := by
            by_contra hc
            rw [List.getElem?_eq_none (by omega)] at hg
            cases hg
          have ha : angles.getD i 0 = a := by
            rw [List.getD_eq_getElem?_getD, hg]
            rfl
          have hstep : (move_step n speeds i a s).servo_targets
              = s.servo_targets.set i (clamp_angle a) :=
            (move_step_fields n speeds i a s).2.2.2.2.2.2.1
          have hlen2 : (i + 1) + k ≤ (move_step n speeds i a s).servo_targets.length := by
            rw [hstep, List.length_set]
            omega
          rw [ih (i + 1) (move_step n speeds i a s) hlen2 j, hstep]
          by_cases hij : j = i
          · subst hij
            rw [if_neg (by omega), if_pos (by omega),
              List.getD_eq_getElem?_getD, List.getElem?_set_eq_of_lt _ (by omega), ha]
            rfl
          · have hset : (s.servo_targets.set i (clamp_angle a)).getD j 0
                = s.servo_targets.getD j 0 := by
              rw [List.getD_eq_getElem?_getD, List.getElem?_set_ne (by omega),
                List.getD_eq_getElem?_getD]
            by_cases hin : i + 1 ≤ j ∧ j < min (i + 1 + k) angles.length
            · rw [if_pos hin, if_pos (by omega)]
            · rw [if_neg hin, if_neg (by omega), hset]

/-- When no speeds list is supplied the `move` loop leaves the stored speeds
untouched. -/
theorem move_loop_speeds_none (angles : List ℚ) (n : Nat) :
    ∀ (k i : Nat) (s : State),
      (run_state (move_loop angles none n k i s)).servo_speeds = s.servo_speeds := by
  intro k
  induction k with
  | zero => intro i s; rfl
  | succ k ih =>
      intro i s
      rw [move_loop]
      cases hg : angles[i]? with
      | none => rfl
      | some a => exact (ih (i + 1) _).trans rfl

/-- A supplied speeds list whose length fails the source's guard leaves the
stored speeds untouched. -/
theorem move_loop_speeds_off (angles sp : List ℚ) (n : Nat)
    (h : ¬(sp.length ≠ 0 ∧ sp.length = n)) :
    ∀ (k i : Nat) (s : State),
      (run_state (move_loop angles (some sp) n k i s)).servo_speeds = s.servo_speeds := by
  intro k
  induction k with
  | zero => intro i s; rfl
  | succ k ih =>
      intro i s
      rw [move_loop]
      cases hg : angles[i]? with
      | none => rfl
      | some a =>
          rw [ih (i + 1) _]
          simp only [move_step]
          rw [if_neg h]

/-- Pointwise effect of the `move` loop on the stored speeds when the
source's guard passes. -/
theorem move_loop_speeds_on (angles sp : List ℚ) (n : Nat)
    (h : sp.length ≠ 0 ∧ sp.length = n) :
    ∀ (k i : Nat) (s : State), i + k ≤ s.servo_speeds.length →
      ∀ j : Nat,
        (run_state (move_loop angles (some sp) n k i s)).servo_speeds.getD j 0
          = if i ≤ j ∧ j < min (i + k) angles.length
            then sp.getD j 0
            else s.servo_speeds.getD j 0 := by
  intro k
  induction k with
  | zero =>
      intro i s _ j
      rw [move_loop, if_neg (by omega)]
      rfl
  | succ k ih =>
      intro i s hlen j
      rw [move_loop]
      cases hg : angles[i]? with
      | none =>
          have hL : angles.length ≤ i := by
            by_contra hc
            rw [List.getElem?_eq_getElem (by omega)] at hg
            cases hg
          rw [if_neg (by omega)]
          rfl
      | some a =>
          have hi : i < angles.length := by
            by_contra hc
            rw [List.getElem?_eq_none (by omega)] at hg
            cases hg
          have hstep : (move_step n (some sp) i a s).servo_speeds
              = s.servo_speeds.set i (sp.getD i 0) := by
            simp only [move_step]
            rw [if_pos h]
          have hlen2 : (i + 1) + k ≤ (move_step n (some sp) i a s).servo_speeds.length := by
            rw [hstep, List.length_set]
            omega
          rw [ih (i + 1) (move_step n (some sp) i a s) hlen2 j, hstep]
          by_cases hij : j = i
          · subst hij
            rw [if_neg (by omega), if_pos (by omega),
              List.getD_eq_getElem?_getD, List.getElem?_set_eq_of_lt _ (by omega)]
            rfl
          · have hset : (s.servo_speeds.set i (sp.getD i 0)).getD j 0
                = s.servo_speeds.getD j 0 := by
              rw [List.getD_eq_getElem?_getD, List.getElem?_set_ne (by omega),
                List.getD_eq_getElem?_getD]
            by_cases hin : i + 1 ≤ j ∧ j < min (i + 1 + k) angles.length
            · rw [if_pos hin, if_pos (by omega)]
            · rw [if_neg hin, if_neg (by omega), hset]

/-- `move` relates to its loop: the arrays come from the loop run on
`move_pre s`, an exception is the loop's exception, and on the exception
path `_move_complete` is exactly the loop's (no assignment was reached). -/
theorem move_run_fields (s : State) (angles : List ℚ) (speeds : Option (List ℚ)) :
    (run_state (move s angles speeds)).servo_targets
        = (run_state (move_loop angles speeds s.max_channel s.max_channel 0 (move_pre s))).servo_targets
    ∧ (run_state (move s angles speeds)).servo_speeds
        = (run_state (move_loop angles speeds s.max_channel s.max_channel 0 (move_pre s))).servo_speeds
    ∧ (run_state (move s angles speeds)).servo_current
        = (run_state (move_loop angles speeds s.max_channel s.max_channel 0 (move_pre s))).servo_current
    ∧ move_failed (move s angles speeds)
        = move_failed (move_loop angles speeds s.max_channel s.max_channel 0 (move_pre s))
    ∧ (move_failed (move s angles speeds) = true →
        (run_state (move s angles speeds)).move_complete
          = (run_state (move_loop angles speeds s.max_channel s.max_channel 0 (move_pre s))).move_complete) := by
  have hmc : (move_pre s).max_channel = s.max_channel := (move_pre_fields s).1
  simp only [move]
  rw [hmc]
  cases h : move_loop angles speeds s.max_channel s.max_channel 0 (move_pre s) <;>
    simp [run_state, move_failed]

/-! ## Helper lemmas about the `_update_servos` loop -/

/-- Fields the tick loop never writes. -/
theorem update_loop_frame (e : ℚ) :
    ∀ (k i : Nat) (s : State) (moving : Bool) (ws : List BusEvent),
      (update_loop e k i s moving ws).1.servo_targets = s.servo_targets
      ∧ (update_loop e k i s moving ws).1.servo_speeds = s.servo_speeds
      ∧ (update_loop e k i s moving ws).1.max_channel = s.max_channel
      ∧ (update_loop e k i s moving ws).1.last_update = s.last_update
      ∧ (update_loop e k i s moving ws).1.update_interval = s.update_interval
      ∧ (update_loop e k i s moving ws).1.control_thread_running = s.control_thread_running
      ∧ (update_loop e k i s moving ws).1.move_complete = s.move_complete := by
  intro k
  induction k with
  | zero => intro i s moving ws; exact ⟨rfl, rfl, rfl, rfl, rfl, rfl, rfl⟩
  | succ k ih =>
      intro i s moving ws
      simp only [update_loop]
      split
      · exact ih (i + 1) _ true _
      · exact ih (i + 1) s moving ws

/-- Every angle the tick loop stores is clamped into [0, 180]. -/
theorem update_loop_inv (e : ℚ) :
    ∀ (k i : Nat) (s : State) (moving : Bool) (ws : List BusEvent),
      (∀ x ∈ s.servo_current, 0 ≤ x ∧ x ≤ 180) →
      ∀ x ∈ (update_loop e k i s moving ws).1.servo_current, 0 ≤ x ∧ x ≤ 180 := by
  intro k
  induction k with
  | zero => intro i s moving ws h; exact h
  | succ k ih =>
      intro i s moving ws h
      simp only [update_loop]
      split
      · refine ih (i + 1) _ true _ ?_
        intro x hx
        rcases List.mem_or_eq_of_mem_set hx with hx | hx
        · exact h x hx
        · subst hx
          exact ⟨le_max_left _ _, max_le (by norm_num) (min_le_left _ _)⟩
      · exact ih (i + 1) s moving ws h

/-- If every channel in the window is already within the 1-degree tolerance
the tick loop changes nothing and emits no bus write. -/
theorem update_loop_id (e : ℚ) :
    ∀ (k i : Nat) (s : State) (moving : Bool) (ws : List BusEvent),
      (∀ j, i ≤ j → j < i + k →
        |s.servo_targets.getD j 0 - s.servo_current.getD j 0| ≤ 1) →
      update_loop e k i s moving ws = (s, moving, ws) := by
  intro k
  induction k with
  | zero => intro i s moving ws _; rfl
  | succ k ih =>
      intro i s moving ws h
      have h0 := h i (le_refl i) (by omega)
      simp only [update_loop]
      rw [if_neg (not_lt.2 h0)]
      exact ih (i + 1) s moving ws (fun j h1 h2 => h j (by omega) (by omega))

/-- `_update_servos` never writes targets, speeds or configuration. -/
theorem update_servos_fields (s : State) (now : ℤ) :
    (update_servos s now).1.servo_targets = s.servo_targets
    ∧ (update_servos s now).1.servo_speeds = s.servo_speeds
    ∧ (update_servos s now).1.max_channel = s.max_channel
    ∧ (update_servos s now).1.update_interval = s.update_interval
    ∧ (update_servos s now).1.control_thread_running = s.control_thread_running := by
  simp only [update_servos]
  split
  · exact ⟨(update_loop_frame _ _ _ _ _ _).1, (update_loop_frame _ _ _ _ _ _).2.1,
      (update_loop_frame _ _ _ _ _ _).2.2.1, (update_loop_frame _ _ _ _ _ _).2.2.2.2.1,
      (update_loop_frame _ _ _ _ _ _).2.2.2.2.2.1⟩
  · exact ⟨rfl, rfl, rfl, rfl, rfl⟩

/-- `_update_servos` keeps every current angle inside [0, 180]. -/
theorem update_servos_inv (s : State) (now : ℤ)
    (h2 : ∀ x ∈ s.servo_current, 0 ≤ x ∧ x ≤ 180) :
    ∀ x ∈ (update_servos s now).1.servo_current, 0 ≤ x ∧ x ≤ 180 := by
  simp only [update_servos]
  split
  · exact update_loop_inv _ _ _ _ _ _ h2
  · exact h2

/-! ## Invariant machinery for claim C7 -/

/-- The clamped value written by `move` lies in [0, 180]. -/
theorem clamp_angle_in_range (a : ℚ) : 0 ≤ clamp_angle a ∧ clamp_angle a ≤ 180 := by
  unfold clamp_angle
  exact ⟨le_max_left _ _, max_le (by norm_num) (min_le_left _ _)⟩

/-- The `move` loop keeps every stored target inside [0, 180]. -/
theorem move_loop_inv (angles : List ℚ) (speeds : Option (List ℚ)) (n : Nat) :
    ∀ (k i : Nat) (s : State),
      (∀ x ∈ s.servo_targets, 0 ≤ x ∧ x ≤ 180) →
      ∀ x ∈ (run_state (move_loop angles speeds n k i s)).servo_targets, 0 ≤ x ∧ x ≤ 180 := by
  intro k
  induction k with
  | zero => intro i s h; exact h
  | succ k ih =>
      intro i s h
      rw [move_loop]
      cases hg : angles[i]? with
      | none => exact h
      | some a =>
          refine ih (i + 1) (move_step n speeds i a s) ?_
          rw [(move_step_fields n speeds i a s).2.2.2.2.2.2.1]
          intro x hx
          rcases List.mem_or_eq_of_mem_set hx with hx | hx
          · exact h x hx
          · subst hx; exact clamp_angle_in_range a

/-- `move` keeps every stored target and current angle inside [0, 180]. -/
theorem move_inv (s : State) (angles : List ℚ) (speeds : Option (List ℚ))
    (h1 : ∀ x ∈ s.servo_targets, 0 ≤ x ∧ x ≤ 180)
    (h2 : ∀ x ∈ s.servo_current, 0 ≤ x ∧ x ≤ 180) :
    (∀ x ∈ (run_state (move s angles speeds)).servo_targets, 0 ≤ x ∧ x ≤ 180)
    ∧ (∀ x ∈ (run_state (move s angles speeds)).servo_current, 0 ≤ x ∧ x ≤ 180) := by
  obtain ⟨ht, hsp, hc, hf, hm⟩ := move_run_fields s angles speeds
  constructor
  · rw [ht]
    refine move_loop_inv angles speeds s.max_channel s.max_channel 0 (move_pre s) ?_
    rw [(move_pre_fields s).2.1]
    exact h1
  · rw [hc, (move_loop_frame angles speeds s.max_channel s.max_channel 0 (move_pre s)).2.1,
      (move_pre_fields s).2.2.1]
    exact h2

/-- `start_control_thread` only touches the flag and the interval. -/
theorem start_fields (s : State) (i : ℚ) :
    (start_control_thread s i).servo_targets = s.servo_targets
    ∧ (start_control_thread s i).servo_current = s.servo_current := by
  unfold start_control_thread
  split <;> exact ⟨rfl, rfl⟩

/-- `stop_control_thread` only touches the flag. -/
theorem stop_fields (s : State) :
    (stop_control_thread s).servo_targets = s.servo_targets
    ∧ (stop_control_thread s).servo_current = s.servo_current := by
  unfold stop_control_thread
  split <;> exact ⟨rfl, rfl⟩

/-- Every public operation preserves the [0, 180] range of the stored target
and current angles. -/
theorem apply_op_inv (s : State) (op : Op)
    (h1 : ∀ x ∈ s.servo_targets, 0 ≤ x ∧ x ≤ 180)
    (h2 : ∀ x ∈ s.servo_current, 0 ≤ x ∧ x ≤ 180) :
    (∀ x ∈ (apply_op s op).servo_targets, 0 ≤ x ∧ x ≤ 180)
    ∧ (∀ x ∈ (apply_op s op).servo_current, 0 ≤ x ∧ x ≤ 180) := by
  cases op with
  | opMove angles speeds => exact move_inv s angles speeds h1 h2
  | opTick now =>
      constructor
      · intro x hx
        rw [show (apply_op s (Op.opTick now)).servo_targets = s.servo_targets from
          (update_servos_fields s now).1] at hx
        exact h1 x hx
      · exact update_servos_inv s now h2
  | opCalibrate a => exact ⟨h1, h2⟩
  | opStart i =>
      constructor
      · intro x hx
        rw [show (apply_op s (Op.opStart i)).servo_targets = s.servo_targets from
          (start_fields s i).1] at hx
        exact h1 x hx
      · intro x hx
        rw [show (apply_op s (Op.opStart i)).servo_current = s.servo_current from
          (start_fields s i).2] at hx
        exact h2 x hx
  | opStop =>
      constructor
      · intro x hx
        rw [show (apply_op s Op.opStop).servo_targets = s.servo_targets from
          (stop_fields s).1] at hx
        exact h1 x hx
      · intro x hx
        rw [show (apply_op s Op.opStop).servo_current = s.servo_current from
          (stop_fields s).2] at hx
        exact h2 x hx

/-- Any sequence of operations preserves the range invariant. -/
theorem run_inv : ∀ (ops : List Op) (s : State),
    (∀ x ∈ s.servo_targets, 0 ≤ x ∧ x ≤ 180) →
    (∀ x ∈ s.servo_current, 0 ≤ x ∧ x ≤ 180) →
    (∀ x ∈ (run s ops).servo_targets, 0 ≤ x ∧ x ≤ 180)
    ∧ (∀ x ∈ (run s ops).servo_current, 0 ≤ x ∧ x ≤ 180) := by
  intro ops
  induction ops with
  | nil => intro s h1 h2; exact ⟨h1, h2⟩
  | cons op ops ih =>
      intro s h1 h2
      rw [run]
      exact ih (apply_op s op) (apply_op_inv s op h1 h2).1 (apply_op_inv s op h1 h2).2

/-! ## Claim C1 -/

/-- Claim C1 (amended): `calibrate_all_servos(angle)` performs only bus
writes and leaves the whole object state — in particular every channel's
stored `currentAngle` and `targetAngle` — unchanged; the property
`currentAngle = targetAngle = 90` does hold right after construction with the
default calibration angle, because `__init__` fills all arrays with 90 before
invoking `calibrate_all_servos`. -/
theorem claim_c1 (s : State) (a : ℚ) (n : Nat) (t0 : ℤ) (ch : Nat) (hch : ch < n) :
    (calibrate_all_servos s a).1 = s
    ∧ (initState n 90 t0).servo_targets.getD ch 0 = 90
    ∧ (initState n 90 t0).servo_current.getD ch 0 = 90 := by
  refine ⟨rfl, ?_, ?_⟩ <;>
    simp [initState, List.getD_eq_getElem?_getD, List.getElem?_replicate, hch]

/-- Claim C1 fails as stated: construct with 2 channels, `move([0, 0])`, then
`calibrate_all_servos(90)` — channel 0's stored target angle is still 0,
not 90. -/
theorem claim_c1_counterexample :
    decide
      ((calibrate_all_servos (run_state (move (initState 2 90 0) [0, 0] none)) 90).1.servo_targets.getD 0 0 = 90
       ∧ (calibrate_all_servos (run_state (move (initState 2 90 0) [0, 0] none)) 90).1.servo_current.getD 0 0 = 90)
      = false := by
  rw [decide_eq_false_iff_not]
  intro h
  have h0 := h.1
  norm_num [calibrate_all_servos, move, move_pre, move_loop, move_step,
    start_control_thread, initState, run_state, clamp_angle, min_def, max_def,
    List.replicate, List.set, List.getD] at h0

/-- Claim C1 witness: the amended theorem applied at one channel of a
one-channel controller. -/
theorem claim_c1_witness :
    (0 : Nat) < 1 ∧
    ((calibrate_all_servos (initState 1 90 0) 45).1 = initState 1 90 0
     ∧ (initState 1 90 0).servo_targets.getD 0 0 = 90
     ∧ (initState 1 90 0).servo_current.getD 0 0 = 90) :=
  ⟨by decide, claim_c1 (initState 1 90 0) 45 1 0 0 (by decide)⟩

/-! ## Claim C3 -/

/-- Claim C3: for an angle already in [0, 180] the computed pulse width is
exactly `500 + (a/180)*2000` microseconds, the 12-bit register value is
exactly `floor(4096 * pulse / 20000)`, and the three anchor angles map to
500, 1500 and 2500 microseconds. -/
theorem claim_c3 (a : ℚ) (h0 : 0 ≤ a) (h1 : a ≤ 180) :
    servo_pulse a = 500 + (a / 180) * 2000
    ∧ servo_pwm a = ⌊4096 * (500 + (a / 180) * 2000) / 20000⌋
    ∧ servo_pulse 0 = 500 ∧ servo_pulse 90 = 1500 ∧ servo_pulse 180 = 2500 := by
  have hc : clamp_angle a = a := by
    unfold clamp_angle
    rw [min_eq_right h1, max_eq_right h0]
  have hp : servo_pulse a = 500 + (a / 180) * 2000 := by
    unfold servo_pulse
    rw [hc]
  have hd : 0 ≤ a / 180 := div_nonneg h0 (by norm_num)
  refine ⟨hp, ?_, by norm_num [servo_pulse, clamp_angle, min_def, max_def],
    by norm_num [servo_pulse, clamp_angle, min_def, max_def],
    by norm_num [servo_pulse, clamp_angle, min_def, max_def]⟩
  unfold servo_pwm pythonInt
  rw [hp, if_pos (by linarith)]

/-- Claim C3 witness: the mapping evaluated at angle 90. -/
theorem claim_c3_witness :
    (0 : ℚ) ≤ 90 ∧ (90 : ℚ) ≤ 180 ∧
    (servo_pulse 90 = 500 + ((90 : ℚ) / 180) * 2000
     ∧ servo_pwm 90 = ⌊4096 * (500 + ((90 : ℚ) / 180) * 2000) / 20000⌋
     ∧ servo_pulse 0 = 500 ∧ servo_pulse 90 = 1500 ∧ servo_pulse 180 = 2500) :=
  ⟨by norm_num, by norm_num, claim_c3 90 (by norm_num) (by norm_num)⟩

/-! ## Claim C4 -/

/-- Claim C4 fails on the code: at the default 0.02 s interval,
`stop_control_thread` computes `int(0.02 * 1000 * 2) = 40` and passes it to
`time.sleep`, which interprets it as 40 seconds — 1000 times the two tick
intervals (0.04 s) the claim describes. -/
theorem claim_c4_code_bug :
    stop_sleep_seconds (1 / 50) = 40 ∧ (40 : ℚ) / (2 * (1 / 50)) = 1000 := by
  constructor
  · norm_num [stop_sleep_seconds, pythonInt]
  · norm_num

/-! ## Claim C5 -/

/-- Claim C5 (amended): every angle write emits exactly three register
writes — zero to the channel's ON low register, the low byte of the 12-bit
value to the OFF low register and the high byte to the OFF high register;
the channel's ON high register is never written. -/
theorem claim_c5 (ch : Nat) (a : ℚ) :
    set_servo_angle ch a =
      [ BusEvent.writeReg (CHANNEL_ON_L + 4 * ch) 0,
        BusEvent.writeReg (CHANNEL_OFF_L + 4 * ch) (servo_pwm a % 256),
        BusEvent.writeReg (CHANNEL_OFF_H + 4 * ch) (servo_pwm a / 256) ]
    ∧ writes_to (CHANNEL_ON_H + 4 * ch) (set_servo_angle ch a) = false := by
  constructor
  · simp only [set_servo_angle, CHANNEL_OFF_L, CHANNEL_OFF_H, List.cons.injEq,
      BusEvent.writeReg.injEq, and_true, true_and]
    omega
  · simp only [writes_to, set_servo_angle, List.any_cons, List.any_nil,
      Bool.or_false, Bool.or_eq_false_iff, beq_eq_false_iff_ne, ne_eq,
      CHANNEL_ON_L, CHANNEL_ON_H, CHANNEL_OFF_L]
    omega

/-- Claim C5 fails as stated: for channel 0 at angle 90 no write to the ON
high register (address 0x07) occurs. -/
theorem claim_c5_counterexample :
    writes_to (CHANNEL_ON_H + 4 * 0) (set_servo_angle 0 90) = false := by
  decide

/-! ## Claim C6 -/

/-- Claim C6: configuration computes
`prescale = round(25000000 / (4096 * f)) - 1` and performs, in order: read
the mode register, set the sleep bit, write the prescaler, restore the prior
mode value, sleep 5 ms, set the restart bit.  (Stated away from the
half-integer tie, where Python's banker's rounding and `round` agree.) -/
theorem claim_c6 (old_mode : Nat) (freq_hz : ℚ)
    (h : Int.fract (25000000 / (4096 * freq_hz)) ≠ 1 / 2) :
    set_pwm_freq old_mode freq_hz =
      (round ((25000000 : ℚ) / (4096 * freq_hz)) - 1,
       [ BusEvent.readReg MODE1,
         BusEvent.writeReg MODE1 (((old_mode &&& 0x7F) ||| SLEEP : Nat) : ℤ),
         BusEvent.writeReg PRESCALE (round ((25000000 : ℚ) / (4096 * freq_hz)) - 1),
         BusEvent.writeReg MODE1 (old_mode : ℤ),
         BusEvent.sleepMs 5,
         BusEvent.writeReg MODE1 ((old_mode ||| RESTART : Nat) : ℤ) ]) := by
  unfold set_pwm_freq pythonRound
  rw [if_neg h]

/-- Claim C6 witness: the sequence at the source's actual call,
`_set_pwm_freq(50)` with prior mode value 0 (prescale 121). -/
theorem claim_c6_witness :
    Int.fract ((25000000 : ℚ) / (4096 * 50)) ≠ 1 / 2 ∧
    set_pwm_freq 0 50 =
      (round ((25000000 : ℚ) / (4096 * 50)) - 1,
       [ BusEvent.readReg MODE1,
         BusEvent.writeReg MODE1 ((((0 : Nat) &&& 0x7F) ||| SLEEP : Nat) : ℤ),
         BusEvent.writeReg PRESCALE (round ((25000000 : ℚ) / (4096 * 50)) - 1),
         BusEvent.writeReg MODE1 ((0 : Nat) : ℤ),
         BusEvent.sleepMs 5,
         BusEvent.writeReg MODE1 (((0 : Nat) ||| RESTART : Nat) : ℤ) ]) :=
  ⟨by norm_num [Int.fract], claim_c6 0 50 (by norm_num [Int.fract])⟩

/-! ## Claim C9 -/

/-- Claim C9: stopping twice yields the same terminal state as stopping once,
starting an already-running loop changes nothing, and stopping a stopped loop
changes nothing. -/
theorem claim_c9 (s : State) (i : ℚ) :
    stop_control_thread (stop_control_thread s) = stop_control_thread s
    ∧ (s.control_thread_running = true → start_control_thread s i = s)
    ∧ (s.control_thread_running = false → stop_control_thread s = s) := by
  cases hb : s.control_thread_running <;>
    simp [stop_control_thread, start_control_thread, hb]

/-- Claim C9 witness: the three parts at concrete running and stopped
states. -/
theorem claim_c9_witness :
    (start_control_thread (initState 1 90 0) (1 / 50)).control_thread_running = true
    ∧ (initState 1 90 0).control_thread_running = false
    ∧ stop_control_thread (stop_control_thread (start_control_thread (initState 1 90 0) (1 / 50)))
        = stop_control_thread (start_control_thread (initState 1 90 0) (1 / 50))
    ∧ start_control_thread (start_control_thread (initState 1 90 0) (1 / 50)) (1 / 50)
        = start_control_thread (initState 1 90 0) (1 / 50)
    ∧ stop_control_thread (initState 1 90 0) = initState 1 90 0 :=
  ⟨by decide, by decide,
   (claim_c9 (start_control_thread (initState 1 90 0) (1 / 50)) (1 / 50)).1,
   (claim_c9 (start_control_thread (initState 1 90 0) (1 / 50)) (1 / 50)).2.1 (by decide),
   (claim_c9 (initState 1 90 0) (1 / 50)).2.2 (by decide)⟩

/-! ## Claim C2 -/

/-- Claim C2 (amended): a non-empty angles list shorter than the channel
count is not rejected up front — the call raises an index error only upon
reaching the first missing index, after the targets of the earlier channels
(channel 0 in particular) have already been overwritten with their clamped
new values; the move-complete flag is unchanged on this path. -/
theorem claim_c2 (s : State) (angles : List ℚ) (speeds : Option (List ℚ))
    (h0 : 0 < angles.length) (h1 : angles.length < s.max_channel)
    (hT : s.max_channel ≤ s.servo_targets.length) :
    move_failed (move s angles speeds) = true
    ∧ (run_state (move s angles speeds)).move_complete = s.move_complete
    ∧ (run_state (move s angles speeds)).servo_targets.getD 0 0
        = clamp_angle (angles.getD 0 0) := by
  obtain ⟨ht, hsp, hc, hf, hm⟩ := move_run_fields s angles speeds
  have herr : move_failed
      (move_loop angles speeds s.max_channel s.max_channel 0 (move_pre s)) = true :=
    move_loop_err angles speeds s.max_channel s.max_channel 0 (move_pre s)
      (by omega) (by omega)
  have hfailed : move_failed (move s angles speeds) = true := hf.trans herr
  refine ⟨hfailed, ?_, ?_⟩
  · rw [hm hfailed,
      (move_loop_frame angles speeds s.max_channel s.max_channel 0 (move_pre s)).1,
      (move_pre_fields s).2.2.2.2.1]
  · have hlen : 0 + s.max_channel ≤ (move_pre s).servo_targets.length := by
      rw [(move_pre_fields s).2.1]
      omega
    rw [ht, move_loop_targets angles speeds s.max_channel s.max_channel 0 (move_pre s) hlen 0,
      if_pos (by omega)]

/-- Claim C2 fails as stated: on a 2-channel controller, `move([5])` raises
but has already changed `servo_targets`. -/
theorem claim_c2_counterexample :
    decide ((run_state (move (initState 2 90 0) [5] none)).servo_targets
              = (initState 2 90 0).servo_targets) = false := by
  rw [decide_eq_false_iff_not]
  intro h
  norm_num [move, move_pre, move_loop, move_step, start_control_thread, initState,
    run_state, clamp_angle, min_def, max_def, List.replicate, List.set] at h

/-- Claim C2 witness: the amended theorem at the concrete failing call
`move([5])` on a 2-channel controller. -/
theorem claim_c2_witness :
    0 < ([5] : List ℚ).length
    ∧ ([5] : List ℚ).length < (initState 2 90 0).max_channel
    ∧ (initState 2 90 0).max_channel ≤ (initState 2 90 0).servo_targets.length
    ∧ (move_failed (move (initState 2 90 0) [5] none) = true
       ∧ (run_state (move (initState 2 90 0) [5] none)).move_complete
           = (initState 2 90 0).move_complete
       ∧ (run_state (move (initState 2 90 0) [5] none)).servo_targets.getD 0 0
           = clamp_angle (([5] : List ℚ).getD 0 0)) :=
  ⟨by decide, by decide, by decide,
   claim_c2 (initState 2 90 0) [5] none (by decide) (by decide) (by decide)⟩

/-! ## Claim C7 -/

/-- Claim C7: starting from a default-calibrated controller (calibration
angle 90), every stored target and current angle stays within [0, 180]
across any sequence of moves, ticks, calibrations, starts and stops. -/
theorem claim_c7 (n : Nat) (t0 : ℤ) (ops : List Op) (a : ℚ)
    (h : a ∈ (run (initState n 90 t0) ops).servo_targets
         ∨ a ∈ (run (initState n 90 t0) ops).servo_current) :
    0 ≤ a ∧ a ≤ 180 := by
  have hbase : ∀ x ∈ List.replicate n (90 : ℚ), 0 ≤ x ∧ x ≤ 180 := by
    intro x hx
    rw [List.eq_of_mem_replicate hx]
    norm_num
  have hrun := run_inv ops (initState n 90 t0) hbase hbase
  rcases h with h | h
  · exact hrun.1 a h
  · exact hrun.2 a h

/-- Claim C7 witness: the invariant read off at a one-channel controller
after no operations. -/
theorem claim_c7_witness :
    (90 : ℚ) ∈ (run (initState 1 90 0) []).servo_targets
    ∧ (0 ≤ (90 : ℚ) ∧ (90 : ℚ) ≤ 180) :=
  ⟨by simp [run, initState], claim_c7 1 0 [] 90 (Or.inl (by simp [run, initState]))⟩

/-! ## Claim C8 -/

/-- Claim C8: a speeds list of matching length overwrites every channel's
stored speed; an absent or wrong-length speeds list leaves all stored speeds
unchanged, while the targets are still updated (clamped) in every case. -/
theorem claim_c8 (s : State) (angles : List ℚ)
    (hA : angles.length = s.max_channel)
    (hT : s.servo_targets.length = s.max_channel)
    (hS : s.servo_speeds.length = s.max_channel) :
    (∀ sp : List ℚ, sp.length = s.max_channel →
       ∀ ch, ch < s.max_channel →
         (run_state (move s angles (some sp))).servo_speeds.getD ch 0 = sp.getD ch 0)
    ∧ (run_state (move s angles none)).servo_speeds = s.servo_speeds
    ∧ (∀ sp : List ℚ, sp.length ≠ s.max_channel →
         (run_state (move s angles (some sp))).servo_speeds = s.servo_speeds)
    ∧ (∀ (speeds : Option (List ℚ)) (ch : Nat), ch < s.max_channel →
         (run_state (move s angles speeds)).servo_targets.getD ch 0
           = clamp_angle (angles.getD ch 0)) := by
  refine ⟨?_, ?_, ?_, ?_⟩
  · intro sp hsp ch hch
    obtain ⟨ht, hspd, _, _, _⟩ := move_run_fields s angles (some sp)
    have hcond : sp.length ≠ 0 ∧ sp.length = s.max_channel := ⟨by omega, hsp⟩
    have hlen : 0 + s.max_channel ≤ (move_pre s).servo_speeds.length := by
      rw [(move_pre_fields s).2.2.2.1]
      omega
    rw [hspd,
      move_loop_speeds_on angles sp s.max_channel hcond s.max_channel 0 (move_pre s) hlen ch,
      if_pos (by omega)]
  · obtain ⟨_, hspd, _, _, _⟩ := move_run_fields s angles none
    rw [hspd, move_loop_speeds_none angles s.max_channel s.max_channel 0 (move_pre s),
      (move_pre_fields s).2.2.2.1]
  · intro sp hsp
    obtain ⟨_, hspd, _, _, _⟩ := move_run_fields s angles (some sp)
    have hcond : ¬(sp.length ≠ 0 ∧ sp.length = s.max_channel) := fun hx => hsp hx.2
    rw [hspd,
      move_loop_speeds_off angles sp s.max_channel hcond s.max_channel 0 (move_pre s),
      (move_pre_fields s).2.2.2.1]
  · intro speeds ch hch
    obtain ⟨ht, _, _, _, _⟩ := move_run_fields s angles speeds
    have hlen : 0 + s.max_channel ≤ (move_pre s).servo_targets.length := by
      rw [(move_pre_fields s).2.1]
      omega
    rw [ht, move_loop_targets angles speeds s.max_channel s.max_channel 0 (move_pre s) hlen ch,
      if_pos (by omega)]

/-- Claim C8 witness: the four parts at a concrete 2-channel controller. -/
theorem claim_c8_witness :
    ([10, 20] : List ℚ).length = (initState 2 90 0).max_channel
    ∧ ((run_state (move (initState 2 90 0) [10, 20] (some [1, 2]))).servo_speeds.getD 0 0
        = ([1, 2] : List ℚ).getD 0 0)
    ∧ ((run_state (move (initState 2 90 0) [10, 20] none)).servo_speeds
        = (initState 2 90 0).servo_speeds)
    ∧ ((run_state (move (initState 2 90 0) [10, 20] (some [1]))).servo_speeds
        = (initState 2 90 0).servo_speeds)
    ∧ ((run_state (move (initState 2 90 0) [10, 20] none)).servo_targets.getD 0 0
        = clamp_angle (([10, 20] : List ℚ).getD 0 0)) :=
  ⟨by decide,
   (claim_c8 (initState 2 90 0) [10, 20] (by decide) (by decide) (by decide)).1
     [1, 2] (by decide) 0 (by decide),
   (claim_c8 (initState 2 90 0) [10, 20] (by decide) (by decide) (by decide)).2.1,
   (claim_c8 (initState 2 90 0) [10, 20] (by decide) (by decide) (by decide)).2.2.1
     [1] (by decide),
   (claim_c8 (initState 2 90 0) [10, 20] (by decide) (by decide) (by decide)).2.2.2
     none 0 (by decide)⟩

/-! ## Claim C10 -/

/-- Claim C10: a tick whose elapsed time is below the update interval is a
complete no-op (same state, no bus write); a completed `move` leaves the
controller reporting `is_moving`, and only a tick with a full interval
elapsed — with all channels within tolerance — clears it. -/
theorem claim_c10 (s : State) (now : ℤ) :
    (((now - s.last_update : ℤ) : ℚ) / 1000 < s.update_interval →
       update_servos s now = (s, []))
    ∧ (∀ (angles : List ℚ) (speeds : Option (List ℚ)) (s1 : State),
         move s angles speeds = Except.ok s1 → is_moving s1 = true)
    ∧ ((∀ ch, ch < s.max_channel →
          |s.servo_targets.getD ch 0 - s.servo_current.getD ch 0| ≤ 1) →
        s.update_interval ≤ ((now - s.last_update : ℤ) : ℚ) / 1000 →
        is_moving (update_servos s now).1 = false) := by
  refine ⟨?_, ?_, ?_⟩
  · intro h
    simp only [update_servos]
    rw [if_neg (not_le.2 h)]
  · intro angles speeds s1 h
    simp only [move] at h
    rcases hml : move_loop angles speeds (move_pre s).max_channel (move_pre s).max_channel 0
        (move_pre s) with s2 | s2
    · rw [hml] at h
      simp only [] at h
      cases h
    · rw [hml] at h
      simp only [Except.ok.injEq] at h
      rw [← h]
      rfl
  · intro hclose hge
    simp only [update_servos]
    rw [if_pos hge]
    have hid := update_loop_id (((now - s.last_update : ℤ) : ℚ) / 1000) s.max_channel 0
      { s with last_update := now } false []
      (fun j hj1 hj2 => hclose j (by omega))
    rw [hid]
    rfl

/-- Claim C10 witness: a 2-channel controller at rest — a 10 ms tick is a
no-op, a `move` marks it moving, and a 100 ms tick with all channels within
tolerance marks it done. -/
theorem claim_c10_witness :
    (((10 : ℤ) - (initState 2 90 0).last_update : ℤ) : ℚ) / 1000
        < (initState 2 90 0).update_interval
    ∧ update_servos (initState 2 90 0) 10 = (initState 2 90 0, [])
    ∧ is_moving (run_state (move (initState 2 90 0) [0, 0] none)) = true
    ∧ is_moving (update_servos (initState 2 90 0) 100).1 = false :=
  ⟨by norm_num [initState],
   (claim_c10 (initState 2 90 0) 10).1 (by norm_num [initState]),
   (claim_c10 (initState 2 90 0) 0).2.1 [0, 0] none _
     (by norm_num [move, move_pre, move_loop, move_step, start_control_thread, initState,
       run_state, clamp_angle, min_def, max_def, List.replicate, List.set]),
   (claim_c10 (initState 2 90 0) 100).2.2
     (by
       intro ch hch
       have hch2 : ch < 2 := hch
       clear hch
       interval_cases ch <;>
         norm_num [initState, List.getD, List.replicate, sub_self, abs_zero])
     (by norm_num [initState])⟩

end PCA9685
